import Mathlib

/-!
Shallow embedding of `src/libnest/src/config_parser.rs` (the `nest` package
manager's configuration parser) together with models of its external
collaborators (`Config`, `Repository`, `Mirror`), and theorems settling the
specification claims about it.

Modelling conventions:
* `toml::value::Value` becomes the inductive `Nest.Value`; a TOML table
  (`BTreeMap<String, Value>`) becomes an association list, iterated in list
  order; float payloads are irrelevant to every operation in this file and
  are omitted.
* File I/O (`read_conf`) is abstracted: `ConfigParser::new` receives the
  result of reading and parsing the file as an `Except` parameter.
* `println!` output is modelled as the `List String` component returned by
  `ConfigParser.new`.
* A possible Rust panic (the `.unwrap()` inside `get_table`) is modelled as
  `Option.none`; functions on the load path therefore return `Option _`,
  where `none` means the call panicked.
* `PathBuf::from` on a string is the identity on the model's `String` paths.
-/

namespace Nest

/-- The generic TOML value tree (`toml::value::Value`): tables map string keys
to values, arrays are ordered sequences; the remaining scalar variants are
carried but never inspected beyond their tag by this parser. -/
inductive Value where
  | str (s : String)
  | int (n : Int)
  | float
  | bool (b : Bool)
  | datetime (s : String)
  | arr (elems : List Value)
  | table (pairs : List (String × Value))

/-- `toml::value::Table`, as an association list in iteration order. -/
abbrev Table := List (String × Value)

/-- `BTreeMap::get`: the value bound to `key`, if any (first binding wins). -/
def Table.get (t : Table) (key : String) : Option Value :=
  (t.find? (fun kv => kv.1 == key)).map (fun kv => kv.2)

/-- `Value::as_str`. -/
def Value.as_str : Value → Option String
  | .str s => some s
  | _ => none

/-- `Value::as_array`. -/
def Value.as_array : Value → Option (List Value)
  | .arr elems => some elems
  | _ => none

/-- `Value::as_table`. -/
def Value.as_table : Value → Option Table
  | .table pairs => some pairs
  | _ => none

/-- `Value::is_table`. -/
def Value.is_table (v : Value) : Bool :=
  v.as_table.isSome

/-- `Value::get` (the `Index<&str>` lookup): on a table, look the key up;
on any other value, `None`. -/
def Value.get (v : Value) (key : String) : Option Value :=
  v.as_table.bind (fun t => Table.get t key)

/-- Modelled from the spec: `Mirror` wraps a single URL string. -/
structure Mirror where
  url : String

/-- Modelled from the spec: `Mirror::new(&str)`. -/
def Mirror.new (url : String) : Mirror :=
  { url := url }

/-- Modelled from the spec: a repository descriptor is identified by a name
(the table key) and owns an ordered sequence of mirrors. -/
structure Repository where
  name : String
  mirrors : List Mirror

/-- Modelled from the spec: the mutable target configuration, with final
values for the cache path, the download path and the repository list. -/
structure Config where
  cache : String
  download_path : String
  repositories : List Repository

/-- Modelled from the spec: `Config::set_cache(PathBuf)`. -/
def Config.set_cache (conf : Config) (path : String) : Config :=
  { conf with cache := path }

/-- Modelled from the spec: `Config::set_download_path(PathBuf)`. -/
def Config.set_download_path (conf : Config) (path : String) : Config :=
  { conf with download_path := path }

/-- Modelled from the spec: `Config::set_repositories` replaces the entire
repository list with the given sequence. -/
def Config.set_repositories (conf : Config) (repos : List Repository) : Config :=
  { conf with repositories := repos }

/-- Modelled from the spec: `Repository::new(&Config, name)` builds a fresh
repository with the given name and no mirrors; the configuration reference is
only for shared defaults and contributes no data the parser reads back. -/
def Repository.new (_conf : Config) (name : String) : Repository :=
  { name := name, mirrors := [] }

/-- `repo.mirrors_mut().push(m)`. -/
def Repository.mirrors_push (repo : Repository) (m : Mirror) : Repository :=
  { repo with mirrors := repo.mirrors ++ [m] }

/-- `ParseConfError`: the three error kinds of the parser; the `io::Error`
and `toml::de::Error` payloads are modelled as strings. -/
inductive ParseConfError where
  | Io (err : String)
  | Deserialize (err : String)
  | Str (err : String)

/-- A struct holding the TOML main value. -/
structure ConfigParser where
  toml : Value

/-- `ConfigParser::new`: the I/O of `read_conf` is abstracted into the
`read_conf` parameter; the returned list holds the console lines printed.
On a successful read the informational line is printed, then the top-level
shape is checked: a non-table top level fails with the `Str` kind. -/
def ConfigParser.new (path : String) (read_conf : Except ParseConfError Value) :
    Except ParseConfError ConfigParser × List String :=
  match read_conf with
  | .ok conf =>
      let console := ["Using " ++ path ++ " as config file"]
      if conf.is_table then
        (.ok { toml := conf }, console)
      else
        (.error (.Str "Invalid toml file"), console)
  | .error e => (.error e, [])

/-- `ConfigParser::get_table`: `self.toml.as_table().unwrap().get(key)` then
`as_table` on the result. The outer `Option` is the panic of the `unwrap`:
`none` means the root value was not a table and the call panicked. -/
def ConfigParser.get_table (p : ConfigParser) (key : String) :
    Option (Option Table) :=
  match p.toml.as_table with
  | none => none
  | some t => some ((Table.get t key).bind Value.as_table)

/-- `ConfigParser::get_str`. -/
def ConfigParser.get_str (table : Table) (key : String) : Option String :=
  (Table.get table key).bind Value.as_str

/-- `ConfigParser::set_path`: look the key up as a string and, when present,
apply the setter with the path built from it. -/
def ConfigParser.set_path (conf : Config) (func : Config → String → Config)
    (table : Table) (key : String) : Config :=
  match ConfigParser.get_str table key with
  | some string => func conf string
  | none => conf

/-- `ConfigParser::parse_paths_mut`: the outer `Option` is the potential
panic propagated from `get_table`. -/
def ConfigParser.parse_paths_mut (p : ConfigParser) (conf : Config) :
    Option Config :=
  match p.get_table "paths" with
  | none => none
  | some (some paths) =>
      let conf := ConfigParser.set_path conf Config.set_cache paths "cache_dir"
      let conf := ConfigParser.set_path conf Config.set_download_path paths "download_dir"
      some conf
  | some none => some conf

/-- The mirror-pushing loop of `ConfigParser::parse_repo`: push one mirror
per element; the `?` on `as_str` aborts the whole repository at the first
non-string element. -/
def ConfigParser.push_mirrors (repo : Repository) : List Value → Option Repository
  | [] => some repo
  | mirror :: rest =>
      match mirror.as_str with
      | some s => ConfigParser.push_mirrors (repo.mirrors_push (Mirror.new s)) rest
      | none => none

/-- `ConfigParser::parse_repo` (the Rust method's unused `&self` receiver is
dropped): look `mirrors` up as an array, then push one mirror per element,
short-circuiting to `None` on the first non-string element. -/
def ConfigParser.parse_repo (repo_name : String) (value : Value) (conf : Config) :
    Option Repository :=
  match (value.get "mirrors").bind Value.as_array with
  | none => none
  | some mirror_list =>
      ConfigParser.push_mirrors (Repository.new conf repo_name) mirror_list

/-- The entry loop of `ConfigParser::parse_repositories`: successfully parsed
repositories are pushed in iteration order, failed entries are skipped. -/
def ConfigParser.build_repo_vec (repositories : Table) (conf : Config) :
    List Repository :=
  repositories.foldl
    (fun repo_vec kv =>
      match ConfigParser.parse_repo kv.1 kv.2 conf with
      | some repo => repo_vec ++ [repo]
      | none => repo_vec)
    []

/-- `ConfigParser::parse_repositories`: the outer `Option` is the potential
panic propagated from `get_table`, the inner one is the Rust `Option`
(`None` when the `repositories` key is absent or not a table). -/
def ConfigParser.parse_repositories (p : ConfigParser) (conf : Config) :
    Option (Option (List Repository)) :=
  match p.get_table "repositories" with
  | none => none
  | some none => some none
  | some (some repositories) =>
      some (some (ConfigParser.build_repo_vec repositories conf))

/-- `ConfigParser::load_to_config`: apply the paths projection, then replace
the repository list when the repositories projection produced one. The
`Option` is the potential panic propagated from `get_table`. -/
def ConfigParser.load_to_config (p : ConfigParser) (conf : Config) :
    Option Config :=
  match p.parse_paths_mut conf with
  | none => none
  | some conf =>
      match p.parse_repositories conf with
      | none => none
      | some (some repos) => some (conf.set_repositories repos)
      | some none => some conf

/-- The paths projection of `load_to_config`, written directly on a table
root (no panic possible): used to state what the load computes. -/
def applyPaths (root : Table) (conf : Config) : Config :=
  match (Table.get root "paths").bind Value.as_table with
  | some paths =>
      ConfigParser.set_path
        (ConfigParser.set_path conf Config.set_cache paths "cache_dir")
        Config.set_download_path paths "download_dir"
  | none => conf

/-- The repositories projection of `load_to_config`, written directly on a
table root (no panic possible). -/
def applyRepositories (root : Table) (conf : Config) : Config :=
  match (Table.get root "repositories").bind Value.as_table with
  | some repositories =>
      conf.set_repositories (ConfigParser.build_repo_vec repositories conf)
  | none => conf

/-- `load_to_config` on a table root, as a total function. -/
def loadPure (root : Table) (conf : Config) : Config :=
  applyRepositories root (applyPaths root conf)

/-- The spec's two-entry example document: repository `a` with a valid mirror
list, repository `b` whose mirror array holds non-string elements. -/
def reposExampleRoot : Table :=
  [("repositories", Value.table
      [("a", Value.table [("mirrors", Value.arr [Value.str "http://a"])]),
       ("b", Value.table [("mirrors", Value.arr [Value.int 1, Value.int 2])])])]

/-- The spec's example document whose `repositories.foo` entry has no
`mirrors` key at all. -/
def fooExampleRoot : Table :=
  [("repositories", Value.table [("foo", Value.table [])])]

/-- A concrete target configuration used by the witnesses. -/
def exampleConf : Config :=
  { cache := "c", download_path := "d", repositories := [] }

end Nest

namespace Nest

/- ### Helper lemmas -/

/-- Pushing successfully parsed repositories during the left fold is a
`filterMap` over the table entries, whatever the accumulator. -/
theorem foldl_push_eq_filterMap (conf : Config) (l : Table) (acc : List Repository) :
    l.foldl
        (fun repo_vec kv =>
          match ConfigParser.parse_repo kv.1 kv.2 conf with
          | some repo => repo_vec ++ [repo]
          | none => repo_vec)
        acc
      = acc ++ l.filterMap (fun kv => ConfigParser.parse_repo kv.1 kv.2 conf) := by
  induction l generalizing acc with
  | nil => simp
  | cons x xs ih =>
      simp only [List.foldl_cons, List.filterMap_cons]
      cases h : ConfigParser.parse_repo x.1 x.2 conf <;> simp [h, ih]

/-- The repository-vector loop is a `filterMap` over the table entries. -/
theorem build_repo_vec_eq (repositories : Table) (conf : Config) :
    ConfigParser.build_repo_vec repositories conf
      = repositories.filterMap (fun kv => ConfigParser.parse_repo kv.1 kv.2 conf) := by
  unfold ConfigParser.build_repo_vec
  simpa using foldl_push_eq_filterMap conf repositories []

/-- A list of string values is pushed in full, in order. -/
theorem push_mirrors_all_strings (repo : Repository) (ss : List String) :
    ConfigParser.push_mirrors repo (ss.map Value.str)
      = some { repo with mirrors := repo.mirrors ++ ss.map Mirror.new } := by
  induction ss generalizing repo with
  | nil => simp [ConfigParser.push_mirrors]
  | cons s ss ih =>
      simp [ConfigParser.push_mirrors, Value.as_str, Repository.mirrors_push, ih]

/-- The push loop aborts at the first non-string element, whatever follows. -/
theorem push_mirrors_bad (repo : Repository) (good : List String)
    (bad : Value) (rest : List Value) (h : bad.as_str = none) :
    ConfigParser.push_mirrors repo (good.map Value.str ++ bad :: rest) = none := by
  induction good generalizing repo with
  | nil => simp [ConfigParser.push_mirrors, h]
  | cons s ss ih => simp [ConfigParser.push_mirrors, Value.as_str, ih]

/-- The push loop never changes the repository's name. -/
theorem push_mirrors_name (l : List Value) (repo r : Repository)
    (h : ConfigParser.push_mirrors repo l = some r) : r.name = repo.name := by
  induction l generalizing repo with
  | nil =>
      simp only [ConfigParser.push_mirrors] at h
      cases h
      rfl
  | cons m rest ih =>
      simp only [ConfigParser.push_mirrors] at h
      cases hm : m.as_str with
      | none => simp [hm] at h
      | some s =>
          simp only [hm] at h
          simpa [Repository.mirrors_push] using
            ih (repo.mirrors_push (Mirror.new s)) h

/-- A parsed repository carries the table key as its name. -/
theorem parse_repo_name (repo_name : String) (value : Value) (conf : Config)
    (r : Repository) (h : ConfigParser.parse_repo repo_name value conf = some r) :
    r.name = repo_name := by
  unfold ConfigParser.parse_repo at h
  cases hm : (value.get "mirrors").bind Value.as_array with
  | none => simp [hm] at h
  | some l =>
      simp only [hm] at h
      exact push_mirrors_name l _ r h

/-- `parse_repo` does not read the configuration it is handed. -/
theorem parse_repo_conf_irrel (repo_name : String) (value : Value)
    (c c' : Config) :
    ConfigParser.parse_repo repo_name value c
      = ConfigParser.parse_repo repo_name value c' := rfl

/-- `build_repo_vec` does not read the configuration it is handed. -/
theorem build_repo_vec_conf_irrel (repositories : Table) (c c' : Config) :
    ConfigParser.build_repo_vec repositories c
      = ConfigParser.build_repo_vec repositories c' := rfl

/-- A successful construction stores a table as the root value. -/
theorem new_ok_toml_table (path : String) (r : Except ParseConfError Value)
    (p : ConfigParser) (h : (ConfigParser.new path r).1 = .ok p) :
    ∃ root, p.toml = .table root := by
  cases r with
  | error e => simp [ConfigParser.new] at h
  | ok v =>
      cases v with
      | table pairs =>
          simp only [ConfigParser.new, Value.is_table, Value.as_table,
            Option.isSome_some, if_true] at h
          cases h
          exact ⟨pairs, rfl⟩
      | str s => simp [ConfigParser.new, Value.is_table, Value.as_table] at h
      | int n => simp [ConfigParser.new, Value.is_table, Value.as_table] at h
      | float => simp [ConfigParser.new, Value.is_table, Value.as_table] at h
      | bool b => simp [ConfigParser.new, Value.is_table, Value.as_table] at h
      | datetime s => simp [ConfigParser.new, Value.is_table, Value.as_table] at h
      | arr elems => simp [ConfigParser.new, Value.is_table, Value.as_table] at h

/-- `get_table` on a table root: the unwrap succeeds and the lookup is the
plain table lookup. -/
theorem get_table_table (root : Table) (key : String) :
    ConfigParser.get_table { toml := .table root } key
      = some ((Table.get root key).bind Value.as_table) := rfl

/-- `load_to_config` on a table root never panics and computes `loadPure`. -/
theorem load_to_config_table (root : Table) (conf : Config) :
    ConfigParser.load_to_config { toml := .table root } conf
      = some (loadPure root conf) := by
  unfold ConfigParser.load_to_config ConfigParser.parse_paths_mut
    ConfigParser.parse_repositories loadPure applyPaths applyRepositories
  rw [get_table_table, get_table_table]
  cases h1 : (Table.get root "paths").bind Value.as_table <;>
    cases h2 : (Table.get root "repositories").bind Value.as_table <;>
      simp

/-- Inverting a non-panicking `get_table` call. -/
theorem get_table_inv (p : ConfigParser) (key : String) (x : Option Table)
    (h : p.get_table key = some x) :
    ∃ root, p.toml = .table root ∧ (Table.get root key).bind Value.as_table = x := by
  unfold ConfigParser.get_table at h
  cases hr : p.toml.as_table with
  | none => rw [hr] at h; cases h
  | some root =>
      rw [hr] at h
      cases h
      refine ⟨root, ?_, rfl⟩
      cases ht : p.toml <;> simp_all [Value.as_table]

/-- `set_path` with a setter that leaves the repository list alone leaves the
repository list alone. -/
theorem set_path_repositories (conf : Config) (func : Config → String → Config)
    (table : Table) (key : String)
    (h : ∀ c s, (func c s).repositories = c.repositories) :
    (ConfigParser.set_path conf func table key).repositories = conf.repositories := by
  unfold ConfigParser.set_path
  split
  · exact h conf _
  · rfl

/-- The paths projection never touches the repository list. -/
theorem applyPaths_repositories (root : Table) (conf : Config) :
    (applyPaths root conf).repositories = conf.repositories := by
  unfold applyPaths
  split
  · rw [set_path_repositories _ Config.set_download_path _ _ (fun c s => rfl),
      set_path_repositories _ Config.set_cache _ _ (fun c s => rfl)]
  · rfl

/-- The repositories projection never touches the cache and download paths. -/
theorem applyRepositories_cache_download (root : Table) (conf : Config) :
    (applyRepositories root conf).cache = conf.cache ∧
    (applyRepositories root conf).download_path = conf.download_path := by
  unfold applyRepositories
  split
  · exact ⟨rfl, rfl⟩
  · exact ⟨rfl, rfl⟩

/-- The cache and download paths after a full load are those set by the paths
projection. -/
theorem loadPure_cache_download (root : Table) (conf : Config) :
    (loadPure root conf).cache = (applyPaths root conf).cache ∧
    (loadPure root conf).download_path = (applyPaths root conf).download_path := by
  unfold loadPure
  exact applyRepositories_cache_download root (applyPaths root conf)

/-- When the `repositories` key holds a table, the load replaces the
repository list with the built sequence (which never reads the prior
configuration). -/
theorem loadPure_repositories_some (root tbl : Table) (conf : Config)
    (h : (Table.get root "repositories").bind Value.as_table = some tbl) :
    (loadPure root conf).repositories = ConfigParser.build_repo_vec tbl conf := by
  unfold loadPure applyRepositories
  simp only [h]
  rfl

/-- When the `repositories` key is absent or not a table, the load leaves the
repository list unchanged. -/
theorem loadPure_repositories_none (root : Table) (conf : Config)
    (h : (Table.get root "repositories").bind Value.as_table = none) :
    (loadPure root conf).repositories = conf.repositories := by
  unfold loadPure applyRepositories
  simp only [h]
  exact applyPaths_repositories root conf

/-- An entry whose `mirrors` key is absent or not an array parses to no
repository at all. -/
theorem parse_repo_none (repo_name : String) (value : Value) (conf : Config)
    (h : (value.get "mirrors").bind Value.as_array = none) :
    ConfigParser.parse_repo repo_name value conf = none := by
  unfold ConfigParser.parse_repo
  simp [h]

/- ### Claim theorems -/

/-- C2: for every input whose contents parse successfully but whose top-level
value is not a table, `ConfigParser::new` fails, and the error is the
string-carrying `Str` kind (not `Deserialize`, not `Io`). -/
theorem C2_non_table_top_level_is_Str_error (path : String) (v : Value)
    (h : v.is_table = false) :
    (ConfigParser.new path (.ok v)).1 = .error (.Str "Invalid toml file") := by
  simp [ConfigParser.new, h]

/-- Witness for C2: a bare array as top-level value. -/
theorem C2_witness :
    (Value.arr []).is_table = false ∧
    (ConfigParser.new "nest.conf" (.ok (Value.arr []))).1
      = .error (.Str "Invalid toml file") :=
  ⟨rfl, C2_non_table_top_level_is_Str_error "nest.conf" (Value.arr []) rfl⟩

/-- C9: for every input whose contents parse successfully and whose top-level
value is a table, `ConfigParser::new` succeeds, whatever the `paths` and
`repositories` sections contain; construction inspects only the top-level
shape. -/
theorem C9_table_top_level_succeeds (path : String) (v : Value)
    (h : v.is_table = true) :
    (ConfigParser.new path (.ok v)).1 = .ok { toml := v } := by
  simp [ConfigParser.new, h]

/-- Witness for C9: a table whose `paths` and `repositories` sections are
internally malformed still constructs. -/
theorem C9_witness :
    (Value.table [("paths", Value.int 3), ("repositories", Value.str "bad")]).is_table
        = true ∧
    (ConfigParser.new "nest.conf"
        (.ok (Value.table [("paths", Value.int 3), ("repositories", Value.str "bad")]))).1
      = .ok { toml := Value.table [("paths", Value.int 3), ("repositories", Value.str "bad")] } :=
  ⟨rfl, C9_table_top_level_succeeds "nest.conf"
      (Value.table [("paths", Value.int 3), ("repositories", Value.str "bad")]) rfl⟩

/-- C5 counterexample: on a document that parses to a bare array, construction
fails (with the `Str` kind), yet the informational console line naming the
config file path is still emitted — `println!` runs before the `is_table`
check, so the line is not emitted only on successful construction. -/
theorem C5_counterexample :
    ((ConfigParser.new "nest.conf" (.ok (Value.arr []))).1
        = .error (.Str "Invalid toml file")) ∧
    (ConfigParser.new "nest.conf" (.ok (Value.arr []))).2
        = ["Using nest.conf as config file"] :=
  ⟨rfl, rfl⟩

/-- C5 (amended): the informational line naming the config file path is
emitted exactly when the file was read and parsed successfully (`read_conf`
returned `Ok`) — one line on every successful parse, including when
construction then fails because the top level is not a table, and no line
when reading or parsing fails. -/
theorem C5_console_line_iff_read_ok (path : String) (v : Value)
    (e : ParseConfError) :
    (ConfigParser.new path (.ok v)).2 = ["Using " ++ path ++ " as config file"] ∧
    (ConfigParser.new path (.error e)).2 = [] := by
  constructor
  · unfold ConfigParser.new
    cases h : v.is_table <;> simp [h]
  · rfl

/-- C3: every parser produced by a successful `ConfigParser::new` stores a
table as its root, so the `as_table().unwrap()` inside `get_table` never
panics, on any key. -/
theorem C3_root_table_unwrap_never_panics (path key : String)
    (r : Except ParseConfError Value) (p : ConfigParser)
    (h : (ConfigParser.new path r).1 = .ok p) :
    p.toml.as_table.isSome = true ∧ (p.get_table key).isSome = true := by
  obtain ⟨root, hroot⟩ := new_ok_toml_table path r p h
  cases p with
  | mk t =>
      cases hroot
      exact ⟨rfl, by rw [get_table_table]; rfl⟩

/-- Witness for C3: a concrete successful construction, with a panic-free
`get_table` call. -/
theorem C3_witness :
    ((ConfigParser.new "nest.conf" (.ok (Value.table []))).1
        = .ok { toml := Value.table [] }) ∧
    (({ toml := Value.table [] } : ConfigParser).toml.as_table.isSome = true ∧
      (({ toml := Value.table [] } : ConfigParser).get_table "paths").isSome = true) :=
  ⟨rfl, C3_root_table_unwrap_never_panics "nest.conf" "paths" (.ok (Value.table []))
      { toml := Value.table [] } rfl⟩

/-- C4: for every successfully constructed parser and every target
configuration, `load_to_config` completes normally — it neither panics nor
produces an error, whatever the document contains. -/
theorem C4_load_to_config_never_fails (path : String)
    (r : Except ParseConfError Value) (p : ConfigParser) (conf : Config)
    (h : (ConfigParser.new path r).1 = .ok p) :
    (p.load_to_config conf).isSome = true := by
  obtain ⟨root, hroot⟩ := new_ok_toml_table path r p h
  cases p with
  | mk t =>
      cases hroot
      rw [load_to_config_table]
      rfl

/-- C1: an entry whose mirror array contains a non-string element is dropped
in its entirety, whatever mirrors follow the bad element; an entry whose
mirrors is an array of strings yields a repository with exactly those
mirrors; and on the spec's two-entry document, the loaded repository
sequence is exactly the one valid repository. -/
theorem C1_non_string_mirror_drops_repo
    (conf : Config) (name name2 : String) (fields fields2 : Table)
    (good : List String) (bad : Value) (rest : List Value) (ss : List String)
    (h1 : Table.get fields "mirrors"
        = some (.arr (good.map .str ++ bad :: rest)))
    (h2 : bad.as_str = none)
    (h3 : Table.get fields2 "mirrors" = some (.arr (ss.map .str))) :
    ConfigParser.parse_repo name (.table fields) conf = none ∧
    ConfigParser.parse_repo name2 (.table fields2) conf
      = some { name := name2, mirrors := ss.map Mirror.new } ∧
    (ConfigParser.load_to_config { toml := .table reposExampleRoot } conf).map
        Config.repositories
      = some [{ name := "a", mirrors := [Mirror.new "http://a"] }] := by
  refine ⟨?_, ?_, ?_⟩
  · unfold ConfigParser.parse_repo
    have hb : (Value.get (.table fields) "mirrors").bind Value.as_array
        = some (good.map .str ++ bad :: rest) := by
      simp [Value.get, Value.as_table, h1, Value.as_array]
    simp only [hb]
    exact push_mirrors_bad _ good bad rest h2
  · unfold ConfigParser.parse_repo
    have hg : (Value.get (.table fields2) "mirrors").bind Value.as_array
        = some (ss.map .str) := by
      simp [Value.get, Value.as_table, h3, Value.as_array]
    simp only [hg]
    simpa [Repository.new] using
      push_mirrors_all_strings (Repository.new conf name2) ss
  · rw [load_to_config_table]
    simp only [Option.map_some']
    rw [loadPure_repositories_some reposExampleRoot
      [("a", Value.table [("mirrors", Value.arr [Value.str "http://a"])]),
       ("b", Value.table [("mirrors", Value.arr [Value.int 1, Value.int 2])])]
      conf rfl]
    rfl

/-- Witness for C1: entry `b` with mirrors `[1, 2]` is dropped, entry `a`
with mirrors `["http://a"]` survives, and the loaded sequence is exactly
the one valid repository. -/
theorem C1_witness :
    (Table.get [("mirrors", Value.arr [Value.int 1, Value.int 2])] "mirrors"
        = some (.arr (([] : List String).map .str ++ Value.int 1 :: [Value.int 2]))) ∧
    (Value.int 1).as_str = none ∧
    (Table.get [("mirrors", Value.arr [Value.str "http://a"])] "mirrors"
        = some (.arr (["http://a"].map .str))) ∧
    (ConfigParser.parse_repo "b"
        (.table [("mirrors", Value.arr [Value.int 1, Value.int 2])]) exampleConf
        = none ∧
      ConfigParser.parse_repo "a"
        (.table [("mirrors", Value.arr [Value.str "http://a"])]) exampleConf
        = some { name := "a", mirrors := ["http://a"].map Mirror.new } ∧
      (ConfigParser.load_to_config { toml := .table reposExampleRoot }
          exampleConf).map Config.repositories
        = some [{ name := "a", mirrors := [Mirror.new "http://a"] }]) :=
  ⟨rfl, rfl, rfl,
    C1_non_string_mirror_drops_repo exampleConf "b" "a"
      [("mirrors", Value.arr [Value.int 1, Value.int 2])]
      [("mirrors", Value.arr [Value.str "http://a"])]
      [] (Value.int 1) [Value.int 2] ["http://a"] rfl rfl rfl⟩

/-- C7: an entry whose `mirrors` key is absent or not an array is skipped
entirely — it parses to no repository, its name never appears in the built
sequence, and on the `repositories.foo`-without-`mirrors` document the loaded
sequence is empty (so `foo` is absent, not present with zero mirrors). -/
theorem C7_missing_mirrors_skips_entry
    (conf : Config) (repos : Table) (name : String) (v : Value)
    (hv : (v.get "mirrors").bind Value.as_array = none)
    (hall : ∀ w, (name, w) ∈ repos →
      (Value.get w "mirrors").bind Value.as_array = none) :
    ConfigParser.parse_repo name v conf = none ∧
    name ∉ (ConfigParser.build_repo_vec repos conf).map Repository.name ∧
    (ConfigParser.load_to_config { toml := .table fooExampleRoot } conf).map
        Config.repositories
      = some [] := by
  refine ⟨parse_repo_none name v conf hv, ?_, ?_⟩
  · intro hmem
    rw [build_repo_vec_eq] at hmem
    simp only [List.mem_map, List.mem_filterMap] at hmem
    obtain ⟨r, ⟨kv, hkv, hparse⟩, hname⟩ := hmem
    have hkeq : r.name = kv.1 := parse_repo_name kv.1 kv.2 conf r hparse
    rw [hkeq] at hname
    have hmem2 : (name, kv.2) ∈ repos := by
      rw [← hname]
      simpa using hkv
    rw [parse_repo_none kv.1 kv.2 conf (hall kv.2 hmem2)] at hparse
    cases hparse
  · rw [load_to_config_table]
    simp only [Option.map_some']
    rw [loadPure_repositories_some fooExampleRoot
      [("foo", Value.table [])] conf rfl]
    rfl

/-- Witness for C7: the `repositories.foo` entry with no `mirrors` key. -/
theorem C7_witness :
    ((Value.table []).get "mirrors").bind Value.as_array = none ∧
    (∀ w, ("foo", w) ∈ ([("foo", Value.table [])] : Table) →
      (Value.get w "mirrors").bind Value.as_array = none) ∧
    (ConfigParser.parse_repo "foo" (Value.table []) exampleConf = none ∧
      "foo" ∉ (ConfigParser.build_repo_vec [("foo", Value.table [])]
          exampleConf).map Repository.name ∧
      (ConfigParser.load_to_config { toml := .table fooExampleRoot }
          exampleConf).map Config.repositories
        = some []) :=
  ⟨rfl,
    by intro w hw
       have hw2 : w = Value.table [] := by simpa using hw
       subst hw2; rfl,
    C7_missing_mirrors_skips_entry exampleConf [("foo", Value.table [])] "foo"
      (Value.table []) rfl
      (by intro w hw
          have hw2 : w = Value.table [] := by simpa using hw
          subst hw2; rfl)⟩

/-- C6: when `paths.cache_dir` is a string and `paths.download_dir` is absent
or not a string, the load sets only the cache path and the download path
keeps its prior value; and when both keys are absent or not strings, both
settings keep their prior values. -/
theorem C6_paths_projection_frame
    (p p2 : ConfigParser) (t t2 : Table) (conf : Config) (s : String)
    (c1 c2 : Config)
    (h1 : p.get_table "paths" = some (some t))
    (h2 : Table.get t "cache_dir" = some (.str s))
    (h3 : (Table.get t "download_dir").bind Value.as_str = none)
    (h4 : p.load_to_config conf = some c1)
    (h5 : p2.get_table "paths" = some (some t2))
    (h6 : (Table.get t2 "cache_dir").bind Value.as_str = none)
    (h7 : (Table.get t2 "download_dir").bind Value.as_str = none)
    (h8 : p2.load_to_config conf = some c2) :
    c1.cache = s ∧ c1.download_path = conf.download_path ∧
    c2.cache = conf.cache ∧ c2.download_path = conf.download_path := by
  obtain ⟨root, hroot, hb⟩ := get_table_inv p "paths" (some t) h1
  obtain ⟨root2, hroot2, hb2⟩ := get_table_inv p2 "paths" (some t2) h5
  cases p with
  | mk tv =>
  cases p2 with
  | mk tv2 =>
  cases hroot
  cases hroot2
  rw [load_to_config_table] at h4 h8
  injection h4 with h4
  injection h8 with h8
  subst h4
  subst h8
  have hcache : ConfigParser.get_str t "cache_dir" = some s := by
    unfold ConfigParser.get_str
    rw [h2]
    rfl
  have hdl : ConfigParser.get_str t "download_dir" = none := h3
  have hcache2 : ConfigParser.get_str t2 "cache_dir" = none := h6
  have hdl2 : ConfigParser.get_str t2 "download_dir" = none := h7
  have hap : applyPaths root conf = conf.set_cache s := by
    unfold applyPaths
    simp only [hb]
    unfold ConfigParser.set_path
    simp [hcache, hdl]
  have hap2 : applyPaths root2 conf = conf := by
    unfold applyPaths
    simp only [hb2]
    unfold ConfigParser.set_path
    simp [hcache2, hdl2]
  refine ⟨?_, ?_, ?_, ?_⟩
  · have hc := (loadPure_cache_download root conf).1
    rw [hap] at hc
    exact hc
  · have hc := (loadPure_cache_download root conf).2
    rw [hap] at hc
    exact hc
  · have hc := (loadPure_cache_download root2 conf).1
    rw [hap2] at hc
    exact hc
  · have hc := (loadPure_cache_download root2 conf).2
    rw [hap2] at hc
    exact hc

/-- Witness for C6: `paths.cache_dir = "x"` with no `download_dir` sets only
the cache path; a non-string `cache_dir` leaves both paths untouched. -/
theorem C6_witness :
    (ConfigParser.get_table
        { toml := .table [("paths", Value.table [("cache_dir", Value.str "x")])] }
        "paths" = some (some [("cache_dir", Value.str "x")])) ∧
    (Table.get [("cache_dir", Value.str "x")] "cache_dir"
        = some (.str "x")) ∧
    ((Table.get [("cache_dir", Value.str "x")] "download_dir").bind Value.as_str
        = none) ∧
    (ConfigParser.load_to_config
        { toml := .table [("paths", Value.table [("cache_dir", Value.str "x")])] }
        exampleConf
      = some { cache := "x", download_path := "d", repositories := [] }) ∧
    (ConfigParser.get_table
        { toml := .table [("paths", Value.table [("cache_dir", Value.int 5)])] }
        "paths" = some (some [("cache_dir", Value.int 5)])) ∧
    ((Table.get [("cache_dir", Value.int 5)] "cache_dir").bind Value.as_str
        = none) ∧
    ((Table.get [("cache_dir", Value.int 5)] "download_dir").bind Value.as_str
        = none) ∧
    (ConfigParser.load_to_config
        { toml := .table [("paths", Value.table [("cache_dir", Value.int 5)])] }
        exampleConf = some exampleConf) ∧
    (({ cache := "x", download_path := "d", repositories := [] } : Config).cache
        = "x" ∧
      ({ cache := "x", download_path := "d", repositories := [] } : Config).download_path
        = exampleConf.download_path ∧
      exampleConf.cache = exampleConf.cache ∧
      exampleConf.download_path = exampleConf.download_path) :=
  ⟨rfl, rfl, rfl, rfl, rfl, rfl, rfl, rfl,
    C6_paths_projection_frame
      { toml := .table [("paths", Value.table [("cache_dir", Value.str "x")])] }
      { toml := .table [("paths", Value.table [("cache_dir", Value.int 5)])] }
      [("cache_dir", Value.str "x")] [("cache_dir", Value.int 5)]
      exampleConf "x"
      { cache := "x", download_path := "d", repositories := [] }
      exampleConf
      rfl rfl rfl rfl rfl rfl rfl rfl⟩

/-- C8: when the document holds a `repositories` table, the loaded repository
list is the built sequence — it replaces the prior list rather than being
appended — so loading the same document twice leaves the same final
repository sequence as loading it once. -/
theorem C8_load_idempotent_on_repositories
    (p : ConfigParser) (tbl : Table) (conf c1 c2 : Config)
    (hrep : p.get_table "repositories" = some (some tbl))
    (hl1 : p.load_to_config conf = some c1)
    (hl2 : p.load_to_config c1 = some c2) :
    c1.repositories = ConfigParser.build_repo_vec tbl conf ∧
    c2.repositories = c1.repositories := by
  obtain ⟨root, hroot, hb⟩ := get_table_inv p "repositories" (some tbl) hrep
  cases p with
  | mk tv =>
  cases hroot
  rw [load_to_config_table] at hl1 hl2
  injection hl1 with hl1
  injection hl2 with hl2
  subst hl1
  subst hl2
  constructor
  · exact loadPure_repositories_some root tbl conf hb
  · rw [loadPure_repositories_some root tbl (loadPure root conf) hb,
      loadPure_repositories_some root tbl conf hb]
    exact build_repo_vec_conf_irrel tbl _ _

/-- Witness for C8: loading the two-entry example document twice leaves the
same single-repository sequence as loading it once. -/
theorem C8_witness :
    (ConfigParser.get_table { toml := .table reposExampleRoot } "repositories"
      = some (some
        [("a", Value.table [("mirrors", Value.arr [Value.str "http://a"])]),
         ("b", Value.table [("mirrors", Value.arr [Value.int 1, Value.int 2])])])) ∧
    (ConfigParser.load_to_config { toml := .table reposExampleRoot } exampleConf
      = some { cache := "c", download_path := "d",
               repositories := [{ name := "a", mirrors := [Mirror.new "http://a"] }] }) ∧
    (ConfigParser.load_to_config { toml := .table reposExampleRoot }
        { cache := "c", download_path := "d",
          repositories := [{ name := "a", mirrors := [Mirror.new "http://a"] }] }
      = some { cache := "c", download_path := "d",
               repositories := [{ name := "a", mirrors := [Mirror.new "http://a"] }] }) ∧
    (({ cache := "c", download_path := "d",
        repositories := [{ name := "a", mirrors := [Mirror.new "http://a"] }] } : Config).repositories
        = ConfigParser.build_repo_vec
            [("a", Value.table [("mirrors", Value.arr [Value.str "http://a"])]),
             ("b", Value.table [("mirrors", Value.arr [Value.int 1, Value.int 2])])]
            exampleConf ∧
      ({ cache := "c", download_path := "d",
         repositories := [{ name := "a", mirrors := [Mirror.new "http://a"] }] } : Config).repositories
        = ({ cache := "c", download_path := "d",
             repositories := [{ name := "a", mirrors := [Mirror.new "http://a"] }] } : Config).repositories) :=
  ⟨rfl, rfl, rfl,
    C8_load_idempotent_on_repositories { toml := .table reposExampleRoot }
      [("a", Value.table [("mirrors", Value.arr [Value.str "http://a"])]),
       ("b", Value.table [("mirrors", Value.arr [Value.int 1, Value.int 2])])]
      exampleConf
      { cache := "c", download_path := "d",
        repositories := [{ name := "a", mirrors := [Mirror.new "http://a"] }] }
      { cache := "c", download_path := "d",
        repositories := [{ name := "a", mirrors := [Mirror.new "http://a"] }] }
      rfl rfl rfl⟩

/-- C10: when the `repositories` key holds a table all of whose entries are
invalid, the load still replaces the prior repository list, leaving it empty;
when the key is absent or not a table, the prior list is left unchanged. -/
theorem C10_all_invalid_entries_yield_empty_replacement
    (p q : ConfigParser) (tbl : Table) (conf conf2 : Config)
    (hrep : p.get_table "repositories" = some (some tbl))
    (hinv : ∀ kv ∈ tbl, ConfigParser.parse_repo kv.1 kv.2 conf = none)
    (habs : q.get_table "repositories" = some none) :
    (p.load_to_config conf).map Config.repositories = some [] ∧
    (q.load_to_config conf2).map Config.repositories = some conf2.repositories := by
  obtain ⟨root, hroot, hb⟩ := get_table_inv p "repositories" (some tbl) hrep
  obtain ⟨root2, hroot2, hb2⟩ := get_table_inv q "repositories" none habs
  cases p with
  | mk tv =>
  cases q with
  | mk tv2 =>
  cases hroot
  cases hroot2
  rw [load_to_config_table, load_to_config_table]
  simp only [Option.map_some']
  constructor
  · have hz : (loadPure root conf).repositories = [] := by
      rw [loadPure_repositories_some root tbl conf hb, build_repo_vec_eq]
      exact List.filterMap_eq_nil_iff.mpr hinv
    rw [hz]
  · rw [loadPure_repositories_none root2 conf2 hb2]

/-- Witness for C10: one entry whose `mirrors` value is not an array yields
an empty replacement; a document with no `repositories` key leaves a
nonempty prior list unchanged. -/
theorem C10_witness :
    (ConfigParser.get_table
        { toml := .table [("repositories",
            Value.table [("x", Value.table [("mirrors", Value.int 0)])])] }
        "repositories"
      = some (some [("x", Value.table [("mirrors", Value.int 0)])])) ∧
    (∀ kv ∈ ([("x", Value.table [("mirrors", Value.int 0)])] : Table),
      ConfigParser.parse_repo kv.1 kv.2 exampleConf = none) ∧
    (ConfigParser.get_table { toml := .table [] } "repositories" = some none) ∧
    ((ConfigParser.load_to_config
        { toml := .table [("repositories",
            Value.table [("x", Value.table [("mirrors", Value.int 0)])])] }
        exampleConf).map Config.repositories = some [] ∧
      (ConfigParser.load_to_config { toml := .table [] }
          { cache := "c", download_path := "d",
            repositories := [{ name := "r0", mirrors := [] }] }).map
          Config.repositories
        = some ({ cache := "c", download_path := "d",
                  repositories := [{ name := "r0", mirrors := [] }] } : Config).repositories) :=
  ⟨rfl,
    by intro kv hkv
       have hk : kv = ("x", Value.table [("mirrors", Value.int 0)]) := by
         simpa using hkv
       subst hk; rfl,
    rfl,
    C10_all_invalid_entries_yield_empty_replacement
      { toml := .table [("repositories",
          Value.table [("x", Value.table [("mirrors", Value.int 0)])])] }
      { toml := .table [] }
      [("x", Value.table [("mirrors", Value.int 0)])]
      exampleConf
      { cache := "c", download_path := "d",
        repositories := [{ name := "r0", mirrors := [] }] }
      rfl
      (by intro kv hkv
          have hk : kv = ("x", Value.table [("mirrors", Value.int 0)]) := by
            simpa using hkv
          subst hk; rfl)
      rfl⟩

/-- Witness for C4: a concrete successful construction followed by a
completing `load_to_config` call. -/
theorem C4_witness :
    ((ConfigParser.new "nest.conf" (.ok (Value.table []))).1
        = .ok { toml := Value.table [] }) ∧
    (ConfigParser.load_to_config { toml := Value.table [] }
        { cache := "c", download_path := "d", repositories := [] }).isSome = true :=
  ⟨rfl, C4_load_to_config_never_fails "nest.conf" (.ok (Value.table []))
      { toml := Value.table [] }
      { cache := "c", download_path := "d", repositories := [] } rfl⟩

end Nest
